import Mathlib

/-!
Verification development for the RSS defense-news aggregator (`src/app.py`).

The Python source is shallowly embedded below.  Optional attributes of a raw
feedparser entry are modelled as `Option` fields; a sub-step of the code that
raises an exception which the code catches is modelled as that step yielding
`none`.  Python epoch timestamps (`time.mktime` results) are modelled as `Int`.
Python's stable `list.sort(key=..., reverse=True)` is modelled by the stable
`List.insertionSort` with the reversed key order, which produces the same list.
-/

namespace RssApp

/-- Models one element of a feedparser entry's `links` collection: a dict with
optional `type` and `href` keys. -/
structure LinkRec where
  type : Option String
  href : Option String
deriving DecidableEq

/-- Models one raw feedparser entry as consumed by `fetch_articles`
(src/app.py lines 44-78).  `published_parsed` is `some t` when the attribute
is present and `time.mktime` succeeds with value `t`, and `none` when the
attribute is absent or `mktime` raises.  Each element of `media_content` /
`media_thumbnail` is the result of `elem.get("url")` (`none` when the `url`
key is missing or the access raises). -/
structure Entry where
  title : Option String
  link : Option String
  summary : Option String
  published_parsed : Option Int
  media_content : List (Option String)
  media_thumbnail : List (Option String)
  links : List LinkRec
deriving DecidableEq

/-- Models one feed descriptor together with the outcome of
`feedparser.parse(feed["url"])`: `entries = none` models the parse raising an
exception (caught by `fetch_articles`, src/app.py lines 40-43), `entries =
some es` models a successful parse returning entries `es`.  `name` is the
optional `"name"` key of the feed dict. -/
structure Feed where
  name : Option String
  entries : Option (List Entry)
deriving DecidableEq

/-- Models the article dict built at src/app.py lines 71-78.  All fields
except `published` are plain strings there; only `published` may be `None`. -/
structure Article where
  title : String
  link : String
  summary : String
  source : String
  published : Option Int
  image : String
deriving DecidableEq

/-- Models the truthiness test Python applies to an optional string
(`if image:` / `if not image:`): `None` and `""` are falsy. -/
def truthyS : Option String → Bool
  | none => false
  | some s => !(s == "")

/-- Character-list version of string startswith: `leadsWith n h` is true when
`n` is an initial segment of `h`. -/
def leadsWith : List Char → List Char → Bool
  | [], _ => true
  | _ :: _, [] => false
  | c :: cs, d :: ds => c == d && leadsWith cs ds

/-- Models Python `s.startswith(p)`. -/
def pyStarts (s p : String) : Bool := leadsWith p.data s.data

/-- The value of the `image` variable after the media-content block
(src/app.py lines 54-59): starts at `None`, then `media_content[0].get("url")`
when the truthy guard on the collection passes. -/
def imgStep1 (e : Entry) : Option String :=
  if e.media_content.isEmpty then none else e.media_content.head?.join

/-- The value of `image` after the media-thumbnail block
(src/app.py lines 60-64): unchanged when already truthy or when the
collection is falsy, else `media_thumbnail[0].get("url")`. -/
def imgStep2 (e : Entry) : Option String :=
  if truthyS (imgStep1 e) then imgStep1 e
  else if e.media_thumbnail.isEmpty then imgStep1 e
  else e.media_thumbnail.head?.join

/-- The value of `image` after the links loop (src/app.py lines 65-69):
unchanged when already truthy or when no link has an `image/` MIME type,
else the href of the first such link (taken even when its `href` key is
missing, since the loop breaks immediately after the assignment). -/
def imgStep3 (e : Entry) : Option String :=
  if truthyS (imgStep2 e) then imgStep2 e
  else
    match e.links.find? (fun l => pyStarts (l.type.getD "") "image/") with
    | some l => l.href
    | none => imgStep2 e

/-- Models the whole image-extraction block of `fetch_articles`
(src/app.py lines 53-69). -/
def imageOf (e : Entry) : Option String := imgStep3 e

/-- Models the article dict construction at src/app.py lines 71-78, for an
entry of a feed whose display name is `sourceName`.  `image or ""` is
`(imageOf e).getD ""` (both `None` and `""` yield `""`). -/
def entryArticle (sourceName : String) (e : Entry) : Article :=
  { title := e.title.getD "(untitled)"
    link := e.link.getD "#"
    summary := e.summary.getD ""
    source := sourceName
    published := e.published_parsed
    image := (imageOf e).getD "" }

/-- Articles contributed by one feed: none when the parse raised
(src/app.py lines 40-43), otherwise one article per entry. -/
def feedArticles (f : Feed) : List Article :=
  match f.entries with
  | none => []
  | some es => es.map (entryArticle (f.name.getD "Unknown"))

/-- Models the sort key `x["published"] or 0` of src/app.py line 81:
an absent timestamp (and a zero one) yields `0`. -/
def sortKey (a : Article) : Int := a.published.getD 0

instance : DecidableRel (fun (a b : Article) => sortKey b ≤ sortKey a) :=
  fun _ _ => Int.decLe _ _

instance : IsTotal Article (fun a b => sortKey b ≤ sortKey a) :=
  ⟨fun a b => Int.le_total (sortKey b) (sortKey a)⟩

instance : IsTrans Article (fun a b => sortKey b ≤ sortKey a) :=
  ⟨fun _ _ _ h1 h2 => le_trans h2 h1⟩

/-- Models `fetch_articles` (src/app.py lines 36-82): collect the articles of
every feed in order, then sort newest-first by `published or 0` with Python's
stable sort. -/
def fetch_articles (feeds : List Feed) : List Article :=
  List.insertionSort (fun a b => sortKey b ≤ sortKey a) ((feeds.map feedArticles).flatten)

theorem mem_feedArticles {f : Feed} {a : Article} :
    a ∈ feedArticles f ↔
      ∃ es, f.entries = some es ∧ ∃ e ∈ es, a = entryArticle (f.name.getD "Unknown") e := by
  cases h : f.entries with
  | none => simp [feedArticles, h]
  | some es => simp [feedArticles, h, eq_comm]

theorem mem_fetch_articles {feeds : List Feed} {a : Article} :
    a ∈ fetch_articles feeds ↔
      ∃ f ∈ feeds, ∃ es, f.entries = some es ∧
        ∃ e ∈ es, a = entryArticle (f.name.getD "Unknown") e := by
  unfold fetch_articles
  rw [(List.perm_insertionSort _ _).mem_iff]
  simp [List.mem_flatten, mem_feedArticles]

theorem fetch_articles_sorted (feeds : List Feed) :
    (fetch_articles feeds).Pairwise (fun a b => sortKey b ≤ sortKey a) :=
  List.sorted_insertionSort _ _

/-- Character-list substring test: `seqContains n h` is true when `n` occurs
contiguously inside `h` (Python's `n in h` for strings). -/
def seqContains (needle : List Char) : List Char → Bool
  | [] => needle.isEmpty
  | c :: t => leadsWith needle (c :: t) || seqContains needle t

/-- Models Python `needle in hay` on strings. -/
def strIn (needle hay : String) : Bool := seqContains needle.data hay.data

/-- Models Python `str.lower()` (ASCII letters; the embedding restricts the
Unicode case table to the ASCII range that the app's data uses). -/
def pyLower (s : String) : String := String.mk (s.data.map Char.toLower)

/-- Models Python `str.strip()`: drop whitespace from both ends. -/
def pyStrip (s : String) : String :=
  String.mk (((s.data.dropWhile Char.isWhitespace).reverse.dropWhile Char.isWhitespace).reverse)

/-- Models the processing of one query parameter at src/app.py lines 111-114:
`(request.args.get(k) or "").strip().lower()`. -/
def procParam (p : Option String) : String := pyLower (pyStrip (p.getD ""))

/-- Models the `matches` predicate of `index` (src/app.py lines 121-128),
applied to already stripped-and-lowered filter strings: each non-empty filter
is conjoined; `q`, `region`, `domain` are substring tests against the lowered
`title + " " + summary`, `source` is equality with the lowered source. -/
def matchesFilters (q region domain source : String) (a : Article) : Bool :=
  let text := pyLower (a.title ++ " " ++ a.summary)
  let ok := true
  let ok := if q == "" then ok else ok && strIn q text
  let ok := if region == "" then ok else ok && strIn region text
  let ok := if domain == "" then ok else ok && strIn domain text
  let ok := if source == "" then ok else ok && (source == pyLower a.source)
  ok

/-- Models `filtered = [a for a in articles if matches(a)]`
(src/app.py line 130). -/
def filteredArticles (articles : List Article) (q region domain source : String) : List Article :=
  articles.filter (matchesFilters q region domain source)

/-- Value of a digit string, most significant first. -/
def digitsToNat (cs : List Char) : Nat :=
  cs.foldl (fun n c => n * 10 + (c.toNat - '0'.toNat)) 0

/-- Models Python's built-in `int()` applied to a string (ASCII decimal
literals: optional surrounding whitespace, optional sign, nonempty digit run;
anything else raises `ValueError`, modelled as `Except.error ()`). -/
def pyInt (s : String) : Except Unit Int :=
  let cs := (pyStrip s).data
  match cs with
  | '+' :: rest =>
      if !rest.isEmpty && rest.all Char.isDigit then .ok (digitsToNat rest) else .error ()
  | '-' :: rest =>
      if !rest.isEmpty && rest.all Char.isDigit then .ok (-(digitsToNat rest : Int)) else .error ()
  | rest =>
      if !rest.isEmpty && rest.all Char.isDigit then .ok (digitsToNat rest) else .error ()

/-- Models `int(request.args.get("page", 1))` (src/app.py line 116): a missing
parameter defaults to the integer `1`; a present parameter goes through
`int()`, whose `ValueError` on non-numeric text is not caught anywhere. -/
def pageInt (p : Option String) : Except Unit Int :=
  match p with
  | none => .ok 1
  | some s => pyInt s

/-- True on lowercase ASCII letters and digits, the class `[a-z0-9]` of the
regex in `normalize` (src/app.py line 85). -/
def isAlnumLower (c : Char) : Bool :=
  ('a' ≤ c && c ≤ 'z') || ('0' ≤ c && c ≤ '9')

/-- Replaces each maximal run of characters outside `[a-z0-9]` with a single
space (the `re.sub(r"[^a-z0-9]+", " ", ·)` of src/app.py line 85).  The flag
records whether a run is already in progress. -/
def collapseAux : Bool → List Char → List Char
  | _, [] => []
  | inRun, c :: cs =>
      if isAlnumLower c then c :: collapseAux false cs
      else if inRun then collapseAux true cs
      else ' ' :: collapseAux true cs

/-- Models `normalize` (src/app.py lines 84-85): lower-case, then replace each
run of non-alphanumeric characters with one space. -/
def normalize (text : String) : String :=
  String.mk (collapseAux false (pyLower text).data)

/-- Appends the pending token (reversed accumulator) if it is nonempty. -/
def flushTok (cur : List Char) (acc : List String) : List String :=
  if cur.isEmpty then acc else acc ++ [String.mk cur.reverse]

/-- Tail of the model of Python `str.split()`: walk the characters keeping the
current token reversed in `cur`; whitespace flushes the token. -/
def wsSplitAux : List Char → List Char → List String → List String
  | [], cur, acc => flushTok cur acc
  | c :: cs, cur, acc =>
      if c.isWhitespace then wsSplitAux cs [] (flushTok cur acc)
      else wsSplitAux cs (c :: cur) acc

/-- Models Python `str.split()` with no arguments: split on whitespace runs,
dropping empty pieces. -/
def pySplitWS (s : String) : List String := wsSplitAux s.data [] []

/-- The stop-word set of `compute_trends` (src/app.py lines 91-97),
transcribed verbatim from the triple-quoted string's `.split()`. -/
def stop : List String :=
  ["a", "an", "the", "and", "or", "of", "to", "for", "with", "in", "on", "at",
   "from", "by", "as", "is", "are", "was", "were", "will", "would", "should",
   "could", "can", "may", "might", "about", "after", "before", "over", "under",
   "into", "out", "up", "down", "new", "more", "most", "other", "some", "any",
   "each", "few", "best", "top", "vs", "amid", "during", "despite", "among",
   "than", "within", "without", "against", "between", "around", "including",
   "while", "near", "world", "air", "land", "sea", "space", "cyber", "asia",
   "europe", "americas", "africa", "middle", "east", "forces", "defense",
   "military", "armed", "army", "navy", "airforce", "air-force", "spaceforce",
   "space-force"]

/-- Models the per-article word comprehension of `compute_trends`
(src/app.py line 101): tokens of the normalized title that are longer than 3
characters and not stop-words. -/
def titleWords (a : Article) : List String :=
  (pySplitWS (normalize a.title)).filter (fun w => decide (3 < w.length) && !(stop.contains w))

/-- One step of `collections.Counter` construction: increment the count of `x`
if already seen, otherwise append `(x, 1)` (insertion order preserved). -/
def bump (acc : List (String × Nat)) (x : String) : List (String × Nat) :=
  if acc.any (fun p => p.1 == x) then
    acc.map (fun p => if p.1 == x then (p.1, p.2 + 1) else p)
  else acc ++ [(x, 1)]

/-- Models `collections.Counter(l)` as an insertion-ordered association list
of counts. -/
def tally (l : List String) : List (String × Nat) := l.foldl bump []

instance : DecidableRel (fun (p q : String × Nat) => q.2 ≤ p.2) :=
  fun _ _ => Nat.decLe _ _

instance : IsTotal (String × Nat) (fun p q => q.2 ≤ p.2) :=
  ⟨fun a b => Nat.le_total b.2 a.2⟩

instance : IsTrans (String × Nat) (fun p q => q.2 ≤ p.2) :=
  ⟨fun _ _ _ h1 h2 => Nat.le_trans h2 h1⟩

/-- Models `Counter(l).most_common(n)`: the counted pairs sorted stably by
descending count, truncated to `n` (CPython documents `most_common` as
`sorted(counter.items(), key=count, reverse=True)[:n]`, a stable sort over
insertion-ordered items). -/
def most_common (n : Nat) (l : List String) : List (String × Nat) :=
  (List.insertionSort (fun p q => q.2 ≤ p.2) (tally l)).take n

/-- Models `compute_trends` (src/app.py lines 87-103).  The `top_n` parameter
defaults to `10` in the source; the embedding passes it explicitly. -/
def compute_trends (articles : List Article) (top_n : Nat) :
    List (String × Nat) × List (String × Nat) :=
  (most_common 8 (articles.map (fun a => a.source)),
   most_common top_n ((articles.map titleWords).flatten))

/-- The constant `per_page = 18` of src/app.py line 117. -/
def per_page : Nat := 18

/-- The pagination slice produced at src/app.py lines 136-141. -/
structure PageSlice where
  items : List Article
  page : Nat
  pages : Nat
deriving DecidableEq

/-- Models the pagination block of `index` (src/app.py lines 136-141):
`pages = max(1, ceil(total / per_page))` (ceiling division, exact for the
float arithmetic of the source in its documented range), the requested page
clamped into `[1, pages]`, and the slice `filtered[start:start+per_page]`. -/
def paginate (filtered : List Article) (pg : Int) : PageSlice :=
  let total := filtered.length
  let pages := max 1 ((total + per_page - 1) / per_page)
  let page : Nat := (min (max 1 pg) (pages : Int)).toNat
  let start := (page - 1) * per_page
  { items := (filtered.drop start).take per_page, page := page, pages := pages }

/-- The raw query parameters consumed by `index`
(src/app.py lines 111-116); `none` models an absent parameter. -/
structure QueryParams where
  q : Option String
  region : Option String
  domain : Option String
  source : Option String
  page : Option String
deriving DecidableEq

/-- The template context assembled by `index` (the fields of
src/app.py lines 143-159 that the query engine computes). -/
structure IndexResult where
  articles : List Article
  page : Nat
  pages : Nat
  total : Nat
  top_sources : List (String × Nat)
  top_keywords : List (String × Nat)
deriving DecidableEq

/-- Models the `index` route body (src/app.py lines 107-159) on an already
fetched article list: process the query parameters, convert `page` with
`int()` (whose failure aborts the request, modelled as `Except.error`),
filter, compute trends over the filtered pre-pagination list with the default
`top_n = 10`, then paginate. -/
def index (allArticles : List Article) (ps : QueryParams) : Except Unit IndexResult :=
  let q := procParam ps.q
  let region := procParam ps.region
  let domain := procParam ps.domain
  let source := procParam ps.source
  match pageInt ps.page with
  | .error e => .error e
  | .ok pg =>
    let filtered := filteredArticles allArticles q region domain source
    let trends := compute_trends filtered 10
    let slice := paginate filtered pg
    .ok { articles := slice.items
          page := slice.page
          pages := slice.pages
          total := filtered.length
          top_sources := trends.1
          top_keywords := trends.2 }

/-! ### Concrete inputs used by counterexamples and witnesses -/

/-- An entry with no resolvable published timestamp. -/
def noTimeEntry : Entry :=
  { title := some "Alpha", link := some "http://a/1", summary := some "text",
    published_parsed := none, media_content := [], media_thumbnail := [], links := [] }

def C1feeds : List Feed := [{ name := some "SrcA", entries := some [noTimeEntry] }]

/-- A raw HTML summary of 708 characters (701 letters plus tags). -/
def C2summary : String := "<p>" ++ String.mk (List.replicate 701 'a') ++ "</p>"

def C2entry : Entry :=
  { title := some "Beta", link := some "http://b/1", summary := some C2summary,
    published_parsed := some 100, media_content := [], media_thumbnail := [], links := [] }

def C2feeds : List Feed := [{ name := some "SrcB", entries := some [C2entry] }]

theorem fetch_C1feeds_eq : fetch_articles C1feeds = [entryArticle "SrcA" noTimeEntry] := rfl

theorem fetch_C2feeds_eq : fetch_articles C2feeds = [entryArticle "SrcB" C2entry] := rfl

/-! ### C1: freshness filtering -/

/-- C1 counterexample: the claim says every entry without a resolvable
timestamp is excluded from the aggregate, but `fetch_articles` keeps an entry
whose `published_parsed` is absent (it is appended with `published = None`,
src/app.py lines 44-78 perform no freshness or timestamp check). -/
theorem C1_counterexample : ∃ a ∈ fetch_articles C1feeds, a.published = none := by
  refine ⟨entryArticle "SrcA" noTimeEntry, ?_, rfl⟩
  rw [fetch_C1feeds_eq]
  exact List.mem_singleton.mpr rfl

/-- C1 (amended): no freshness filtering is applied at all — every entry of
every successfully parsed feed is included in the aggregate regardless of its
timestamp, and entries without a resolvable timestamp are included with an
absent `published` field (lenient mode). -/
theorem C1_no_freshness_filtering (feeds : List Feed) (f : Feed) (es : List Entry) (e : Entry)
    (hf : f ∈ feeds) (hes : f.entries = some es) (he : e ∈ es) :
    entryArticle (f.name.getD "Unknown") e ∈ fetch_articles feeds :=
  mem_fetch_articles.mpr ⟨f, hf, es, hes, e, he, rfl⟩

theorem C1_witness : entryArticle "SrcA" noTimeEntry ∈ fetch_articles C1feeds :=
  C1_no_freshness_filtering C1feeds ⟨some "SrcA", some [noTimeEntry]⟩ [noTimeEntry] noTimeEntry
    (List.mem_singleton.mpr rfl) rfl (List.mem_singleton.mpr rfl)

/-! ### C2: summary stripping and truncation -/

set_option maxRecDepth 8000

/-- C2 counterexample: the claim says every article summary is HTML-stripped
and at most 700 characters, but the code copies the raw summary verbatim
(src/app.py line 74): an entry whose summary is 708 characters of raw HTML
yields an article whose summary still exceeds 700 characters and still
contains the `<p>` markup. -/
theorem C2_counterexample :
    ∃ a ∈ fetch_articles C2feeds, 700 < a.summary.length ∧ strIn "<p>" a.summary = true := by
  refine ⟨entryArticle "SrcB" C2entry, ?_, ?_, ?_⟩
  · rw [fetch_C2feeds_eq]
    exact List.mem_singleton.mpr rfl
  · decide
  · decide

/-- C2 (amended): the summary of every produced article is the raw entry
summary unchanged (defaulting to `""` when absent); no tag stripping,
whitespace collapsing, or truncation is applied. -/
theorem C2_summary_is_raw (feeds : List Feed) (a : Article) (h : a ∈ fetch_articles feeds) :
    ∃ f ∈ feeds, ∃ es, f.entries = some es ∧ ∃ e ∈ es, a.summary = e.summary.getD "" := by
  rcases mem_fetch_articles.mp h with ⟨f, hf, es, hes, e, he, rfl⟩
  exact ⟨f, hf, es, hes, e, he, rfl⟩

theorem C2_witness :
    entryArticle "SrcB" C2entry ∈ fetch_articles C2feeds ∧
    ∃ f ∈ C2feeds, ∃ es, f.entries = some es ∧
      ∃ e ∈ es, (entryArticle "SrcB" C2entry).summary = e.summary.getD "" := by
  have hm : entryArticle "SrcB" C2entry ∈ fetch_articles C2feeds := by
    rw [fetch_C2feeds_eq]
    exact List.mem_singleton.mpr rfl
  exact ⟨hm, C2_summary_is_raw C2feeds _ hm⟩

/-! ### C9: one bad feed is isolated -/

/-- C9: a feed whose parse raises contributes zero articles and the aggregate
is exactly what the remaining feeds produce — the failure never propagates
(src/app.py lines 40-43 catch the exception and `continue`). -/
theorem C9_bad_feed_isolated (pre post : List Feed) (bad : Feed) (hbad : bad.entries = none) :
    fetch_articles (pre ++ bad :: post) = fetch_articles (pre ++ post) := by
  unfold fetch_articles
  congr 1
  simp [feedArticles, hbad]

def C9good : Feed := { name := some "Good", entries := some [noTimeEntry] }

def C9bad : Feed := { name := some "Bad", entries := none }

theorem C9_witness :
    fetch_articles ([C9good] ++ C9bad :: []) = fetch_articles ([C9good] ++ []) :=
  C9_bad_feed_isolated [C9good] [] C9bad rfl

/-! ### C10: field defaults -/

/-- C10: every article the fetch produces comes from some entry, with the
documented string defaults for missing sub-fields: `"(untitled)"` for the
title, `"#"` for the link, `""` for the summary, `"Unknown"` for the source
name and `""` for an unresolved image; only `published` is optional (the
`Article` fields other than `published` are total strings by construction). -/
theorem C10_field_defaults (feeds : List Feed) (a : Article) (h : a ∈ fetch_articles feeds) :
    ∃ f ∈ feeds, ∃ es, f.entries = some es ∧ ∃ e ∈ es,
      a = entryArticle (f.name.getD "Unknown") e ∧
      (e.title = none → a.title = "(untitled)") ∧
      (e.link = none → a.link = "#") ∧
      (e.summary = none → a.summary = "") ∧
      (f.name = none → a.source = "Unknown") ∧
      (imageOf e = none → a.image = "") := by
  rcases mem_fetch_articles.mp h with ⟨f, hf, es, hes, e, he, rfl⟩
  refine ⟨f, hf, es, hes, e, he, rfl, ?_, ?_, ?_, ?_, ?_⟩
  · intro ht; simp [entryArticle, ht]
  · intro hl; simp [entryArticle, hl]
  · intro hs; simp [entryArticle, hs]
  · intro hn; simp [entryArticle, hn]
  · intro hi; simp [entryArticle, hi]

/-- An entry with every optional sub-field missing. -/
def bareEntry : Entry := ⟨none, none, none, none, [], [], []⟩

def C10feeds : List Feed := [{ name := none, entries := some [bareEntry] }]

theorem C10_witness :
    entryArticle "Unknown" bareEntry ∈ fetch_articles C10feeds ∧
    ∃ f ∈ C10feeds, ∃ es, f.entries = some es ∧ ∃ e ∈ es,
      entryArticle "Unknown" bareEntry = entryArticle (f.name.getD "Unknown") e ∧
      (e.title = none → (entryArticle "Unknown" bareEntry).title = "(untitled)") ∧
      (e.link = none → (entryArticle "Unknown" bareEntry).link = "#") ∧
      (e.summary = none → (entryArticle "Unknown" bareEntry).summary = "") ∧
      (f.name = none → (entryArticle "Unknown" bareEntry).source = "Unknown") ∧
      (imageOf e = none → (entryArticle "Unknown" bareEntry).image = "") := by
  have hm : entryArticle "Unknown" bareEntry ∈ fetch_articles C10feeds := by
    rw [show fetch_articles C10feeds = [entryArticle "Unknown" bareEntry] from rfl]
    exact List.mem_singleton.mpr rfl
  exact ⟨hm, C10_field_defaults C10feeds _ hm⟩

/-! ### C3: image fallback chain -/

/-- First media-content url of an entry. -/
def ext1 (e : Entry) : Option String := e.media_content.head?.join

/-- First media-thumbnail url of an entry. -/
def ext2 (e : Entry) : Option String := e.media_thumbnail.head?.join

/-- Href of the first link whose declared MIME type starts with `image/`. -/
def ext3 (e : Entry) : Option String :=
  (e.links.find? (fun l => pyStarts (l.type.getD "") "image/")).bind (fun l => l.href)

/-- Modelled from the spec (as amended by the counterexample): the clean
first-truthy-match priority chain over the three extractors that the code
actually implements, yielding `""` when no step produces a non-empty URL. -/
def specChainImage (e : Entry) : String :=
  match ([ext1 e, ext2 e, ext3 e].find? truthyS).join with
  | some s => s
  | none => ""

/-- Modelled from the spec: the spec's image-fallback step 4, the first
`<img src="..."` occurrence found by scanning raw HTML. No such scan exists
anywhere in src/app.py; this definition follows the spec's words only to
exhibit the divergence. -/
def specImgScan : List Char → Option String
  | [] => none
  | c :: t =>
      if leadsWith ("<img src=\"").data (c :: t) then
        some (String.mk (((c :: t).drop 10).takeWhile (fun d => !(d == '"'))))
      else specImgScan t

def C3entry : Entry :=
  { title := some "Gamma", link := some "http://c/1",
    summary := some "<img src=\"http://c/pic.png\"> story", published_parsed := some 50,
    media_content := [], media_thumbnail := [], links := [] }

def C3feeds : List Feed := [{ name := some "SrcC", entries := some [C3entry] }]

/-- C3 counterexample: the claim's step (4) — scanning the raw summary HTML
for the first `<img src="...">` — does not exist in the code: an entry whose
only image candidate is an inline `<img>` tag in its summary yields the empty
image, even though the claimed scan would find `http://c/pic.png`. -/
theorem C3_counterexample :
    ∃ a ∈ fetch_articles C3feeds,
      a.image = "" ∧ specImgScan (C3entry.summary.getD "").data = some "http://c/pic.png" := by
  refine ⟨entryArticle "SrcC" C3entry, ?_, rfl, by decide⟩
  rw [show fetch_articles C3feeds = [entryArticle "SrcC" C3entry] from rfl]
  exact List.mem_singleton.mpr rfl

theorem untruthy_getD {o : Option String} (h : truthyS o = false) : o.getD "" = "" := by
  cases o with
  | none => rfl
  | some s =>
      simp only [truthyS, Bool.not_eq_false', beq_iff_eq] at h
      simp [h]

theorem truthyS_eq_true {o : Option String} (h : truthyS o = true) :
    ∃ s, o = some s ∧ s ≠ "" := by
  cases o with
  | none => simp [truthyS] at h
  | some s =>
      refine ⟨s, rfl, ?_⟩
      simpa [truthyS] using h

theorem imgStep1_eq_ext1 (e : Entry) : imgStep1 e = ext1 e := by
  unfold imgStep1 ext1
  cases e.media_content <;> simp

theorem imgStep2_of_truthy (e : Entry) (h : truthyS (imgStep1 e) = true) :
    imgStep2 e = imgStep1 e := by
  unfold imgStep2
  simp [h]

@[simp] theorem truthyS_none : truthyS none = false := rfl

@[simp] theorem truthyS_some (s : String) : truthyS (some s) = !(s == "") := rfl

theorem imgStep2_truthiness (e : Entry) (h : truthyS (imgStep1 e) = false) :
    truthyS (imgStep2 e) = truthyS (ext2 e) := by
  unfold imgStep2 ext2
  cases hmt : e.media_thumbnail with
  | nil => simp [h]
  | cons o t => simp [h]

theorem imgStep2_of_ext2_truthy (e : Entry) (h1 : truthyS (imgStep1 e) = false)
    (h2 : truthyS (ext2 e) = true) : imgStep2 e = ext2 e := by
  unfold imgStep2 ext2 at *
  cases hmt : e.media_thumbnail with
  | nil => rw [hmt] at h2; simp [truthyS] at h2
  | cons o t => simp [h1, hmt]

/-- C3 (amended): the image of every normalized article is resolved by the
fixed first-match-wins chain (1) first media-content url, (2) first
media-thumbnail url, (3) href of the first link whose MIME type starts with
`image/`, and is `""` when no step yields a non-empty URL; the raw HTML is
never scanned.  In particular an entry carrying both a media-thumbnail and an
inline `<img>` tag resolves to the media-thumbnail URL. -/
theorem C3_image_priority_chain (n : String) (e : Entry) :
    (entryArticle n e).image = specChainImage e := by
  show (imageOf e).getD "" = specChainImage e
  unfold imageOf imgStep3 specChainImage
  by_cases h1 : truthyS (imgStep1 e)
  · have h1' : truthyS (ext1 e) = true := by rw [← imgStep1_eq_ext1]; exact h1
    rcases truthyS_eq_true h1' with ⟨s, hs, hsne⟩
    have hb : (s == "") = false := by simpa using hsne
    rw [imgStep2_of_truthy e h1, h1, if_pos rfl, imgStep1_eq_ext1, hs]
    simp [List.find?, hb]
  · have h1f : truthyS (imgStep1 e) = false := by simpa using h1
    have h1' : truthyS (ext1 e) = false := by rw [← imgStep1_eq_ext1]; exact h1f
    by_cases h2 : truthyS (ext2 e)
    · rcases truthyS_eq_true h2 with ⟨s, hs, hsne⟩
      have hb : (s == "") = false := by simpa using hsne
      have hstep2 : imgStep2 e = some s := by rw [imgStep2_of_ext2_truthy e h1f h2, hs]
      rw [hstep2, hs]
      simp [List.find?, h1', hb]
    · have h2a : truthyS (ext2 e) = false := by simpa using h2
      have h2' : truthyS (imgStep2 e) = false := by
        rw [imgStep2_truthiness e h1f]
        exact h2a
      rw [h2']
      simp only [Bool.false_eq_true, if_false]
      cases hf : e.links.find? (fun l => pyStarts (l.type.getD "") "image/") with
      | none =>
          have hext3 : ext3 e = none := by simp [ext3, hf]
          rw [untruthy_getD h2']
          simp [List.find?, h1', h2a, hext3]
      | some lk =>
          have hext3 : ext3 e = lk.href := by simp [ext3, hf]
          by_cases h3 : truthyS lk.href
          · rcases truthyS_eq_true h3 with ⟨s, hs, hsne⟩
            have hb : (s == "") = false := by simpa using hsne
            show (lk.href).getD "" = _
            rw [hs]
            simp [List.find?, h1', h2a, hext3, hs, hb]
          · have h3' : truthyS lk.href = false := by simpa using h3
            show (lk.href).getD "" = _
            rw [untruthy_getD h3']
            simp [List.find?, h1', h2a, hext3, h3']

/-! ### C4: pagination -/

/-- C4: pagination computes `pages = max(1, ceil(total / 18))`, clamps the
1-based requested page into `[1, pages]` (never an error), and returns the
slice `[(page-1)*18, page*18)`; with 37 articles a request for page 99 clamps
to page 3 and returns exactly 1 item. -/
theorem C4_pagination (filtered : List Article) (pg : Int) :
    1 ≤ (paginate filtered pg).page ∧
    (paginate filtered pg).page ≤ (paginate filtered pg).pages ∧
    (paginate filtered pg).pages = max 1 ((filtered.length + per_page - 1) / per_page) ∧
    (paginate filtered pg).items =
      (filtered.drop (((paginate filtered pg).page - 1) * per_page)).take per_page ∧
    (filtered.length = 37 → pg = 99 →
      (paginate filtered pg).page = 3 ∧ (paginate filtered pg).items.length = 1) := by
  refine ⟨?_, ?_, rfl, rfl, ?_⟩
  · show 1 ≤ (min (max 1 pg) ((max 1 ((filtered.length + per_page - 1) / per_page) : Nat) : Int)).toNat
    have h1 : (1 : Int) ≤ ((max 1 ((filtered.length + per_page - 1) / per_page) : Nat) : Int) := by
      exact_mod_cast Nat.le_max_left 1 _
    omega
  · show (min (max 1 pg) ((max 1 ((filtered.length + per_page - 1) / per_page) : Nat) : Int)).toNat ≤
      max 1 ((filtered.length + per_page - 1) / per_page)
    omega
  · intro h37 h99
    subst h99
    constructor
    · show (min (max 1 (99 : Int)) ((max 1 ((filtered.length + per_page - 1) / per_page) : Nat) : Int)).toNat = 3
      rw [h37]
      decide
    · show ((filtered.drop
        (((min (max 1 (99 : Int)) ((max 1 ((filtered.length + per_page - 1) / per_page) : Nat) : Int)).toNat - 1)
          * per_page)).take per_page).length = 1
      rw [h37]
      simp [List.length_take, List.length_drop, h37, per_page]

def someArticle : Article :=
  { title := "t", link := "l", summary := "s", source := "x", published := none, image := "" }

theorem C4_witness :
    (List.replicate 37 someArticle).length = 37 ∧
    (paginate (List.replicate 37 someArticle) 99).page = 3 ∧
    (paginate (List.replicate 37 someArticle) 99).items.length = 1 :=
  ⟨by simp, (C4_pagination (List.replicate 37 someArticle) 99).2.2.2.2 (by simp) rfl⟩

/-! ### C5: conjunctive filtering -/

theorem matchesFilters_iff (q region domain source : String) (a : Article) :
    matchesFilters q region domain source a = true ↔
      (q = "" ∨ strIn q (pyLower (a.title ++ " " ++ a.summary)) = true) ∧
      (region = "" ∨ strIn region (pyLower (a.title ++ " " ++ a.summary)) = true) ∧
      (domain = "" ∨ strIn domain (pyLower (a.title ++ " " ++ a.summary)) = true) ∧
      (source = "" ∨ source = pyLower a.source) := by
  unfold matchesFilters
  by_cases hq : q = "" <;> by_cases hr : region = "" <;> by_cases hd : domain = "" <;>
    by_cases hs : source = "" <;>
    simp [hq, hr, hd, hs, and_assoc]

/-- C5: an article is kept by the query filter iff it satisfies every
non-empty filter conjunctively — `q`, `region`, `domain` as substring tests
against the lowered concatenation of title and summary, `source` as equality
with the lowered source name; an empty filter matches everything.  (In
`index` these filter strings are the stripped-and-lowered query parameters,
so the tests are case-insensitive.) -/
theorem C5_conjunctive_filtering (articles : List Article) (q region domain source : String)
    (a : Article) :
    a ∈ filteredArticles articles q region domain source ↔
      a ∈ articles ∧
      (q = "" ∨ strIn q (pyLower (a.title ++ " " ++ a.summary)) = true) ∧
      (region = "" ∨ strIn region (pyLower (a.title ++ " " ++ a.summary)) = true) ∧
      (domain = "" ∨ strIn domain (pyLower (a.title ++ " " ++ a.summary)) = true) ∧
      (source = "" ∨ source = pyLower a.source) := by
  unfold filteredArticles
  rw [List.mem_filter, matchesFilters_iff]

/-! ### C6: aggregate ordering -/

def C6entryNoTime : Entry :=
  { title := some "NoTime", link := none, summary := none, published_parsed := none,
    media_content := [], media_thumbnail := [], links := [] }

def C6entryOld : Entry :=
  { title := some "Old", link := none, summary := none, published_parsed := some (-5),
    media_content := [], media_thumbnail := [], links := [] }

def C6feeds : List Feed := [{ name := some "SrcF", entries := some [C6entryNoTime, C6entryOld] }]

/-- C6 counterexample: the claim says articles with an absent timestamp sort
as the minimum value, after every timestamped article — but the sort key is
`published or 0`, so an article with a negative (pre-epoch) timestamp sorts
after an untimestamped one: here the untimestamped article comes first. -/
theorem C6_counterexample :
    (fetch_articles C6feeds).map (fun a => a.published) = [none, some (-5)] ∧
    ¬ (fetch_articles C6feeds).Pairwise (fun a b => a.published = none → b.published = none) := by
  constructor
  · rfl
  · intro h
    rw [show fetch_articles C6feeds =
      [entryArticle "SrcF" C6entryNoTime, entryArticle "SrcF" C6entryOld] from rfl] at h
    have h12 := (List.pairwise_cons.mp h).1 _ (List.mem_singleton.mpr rfl)
    exact absurd (h12 rfl) (by decide)

/-- C6 (amended): the aggregate is sorted in non-increasing order of the key
`published or 0`; an article with an absent timestamp (key 0) therefore
appears after every article with a positive timestamp, though it may precede
articles with negative (pre-epoch) timestamps. -/
theorem C6_sorted_by_key (feeds : List Feed) :
    (fetch_articles feeds).Pairwise (fun a b =>
      sortKey b ≤ sortKey a ∧
      (a.published = none → ∀ t, b.published = some t → t ≤ 0)) := by
  refine (fetch_articles_sorted feeds).imp ?_
  intro a b hab
  refine ⟨hab, fun ha t hb => ?_⟩
  have hka : sortKey a = 0 := by simp [sortKey, ha]
  have hkb : sortKey b = t := by simp [sortKey, hb]
  omega

/-! ### C7: trend summary -/

theorem mem_bump {acc : List (String × Nat)} {x : String} {p : String × Nat}
    (hp : p ∈ bump acc x) : p.1 = x ∨ ∃ q ∈ acc, p.1 = q.1 := by
  unfold bump at hp
  by_cases h : acc.any (fun p => p.1 == x)
  · rw [if_pos h] at hp
    rcases List.mem_map.mp hp with ⟨q, hq, hqp⟩
    right
    refine ⟨q, hq, ?_⟩
    rw [← hqp]
    by_cases hx : q.1 == x <;> simp [hx]
  · rw [if_neg h] at hp
    rcases List.mem_append.mp hp with hq | hx
    · right; exact ⟨p, hq, rfl⟩
    · left; rw [List.mem_singleton.mp hx]

theorem tally_keys_aux (p : String × Nat) (l : List String) :
    ∀ acc, p ∈ List.foldl bump acc l → (∃ q ∈ acc, p.1 = q.1) ∨ p.1 ∈ l := by
  induction l with
  | nil => intro acc h; left; exact ⟨p, h, rfl⟩
  | cons x xs ih =>
      intro acc h
      rw [List.foldl_cons] at h
      rcases ih (bump acc x) h with ⟨q, hq, hpq⟩ | h2
      · rcases mem_bump hq with hx | ⟨q', hq', hqq'⟩
        · right; rw [hpq, hx]; exact List.mem_cons_self x xs
        · left; exact ⟨q', hq', hpq.trans hqq'⟩
      · right; exact List.mem_cons_of_mem x h2

theorem tally_keys {l : List String} {p : String × Nat} (hp : p ∈ tally l) : p.1 ∈ l := by
  rcases tally_keys_aux p l [] hp with ⟨q, hq, _⟩ | h2
  · simp at hq
  · exact h2

theorem most_common_length (n : Nat) (l : List String) : (most_common n l).length ≤ n :=
  List.length_take_le n _

theorem most_common_sorted (n : Nat) (l : List String) :
    (most_common n l).Pairwise (fun p q => q.2 ≤ p.2) :=
  List.Pairwise.sublist (List.take_sublist _ _) (List.sorted_insertionSort _ _)

theorem mem_most_common_keys {n : Nat} {l : List String} {p : String × Nat}
    (hp : p ∈ most_common n l) : p.1 ∈ l := by
  have h1 : p ∈ List.insertionSort (fun p q => q.2 ≤ p.2) (tally l) :=
    List.mem_of_mem_take hp
  have h2 : p ∈ tally l := (List.perm_insertionSort _ _).mem_iff.mp h1
  exact tally_keys h2

/-- C7: the trend summary returned by `index` is computed over the filtered,
pre-pagination article list (not the unfiltered list and not the current
page): top sources and top keywords are `most_common` over the filtered
list's sources and title tokens; top sources are capped at 8, top keywords
at the default 10; every reported keyword has length strictly greater than 3
and is not a stop-word; both rankings are non-increasing in count. -/
theorem C7_trends_over_filtered (articles : List Article) (ps : QueryParams) (r : IndexResult)
    (h : index articles ps = .ok r) :
    r.top_sources = most_common 8 ((filteredArticles articles (procParam ps.q)
      (procParam ps.region) (procParam ps.domain) (procParam ps.source)).map
        (fun a => a.source)) ∧
    r.top_keywords = most_common 10 (((filteredArticles articles (procParam ps.q)
      (procParam ps.region) (procParam ps.domain) (procParam ps.source)).map
        titleWords).flatten) ∧
    r.top_sources.length ≤ 8 ∧
    r.top_keywords.length ≤ 10 ∧
    (∀ p ∈ r.top_keywords, 3 < p.1.length ∧ p.1 ∉ stop) ∧
    r.top_sources.Pairwise (fun p q => q.2 ≤ p.2) ∧
    r.top_keywords.Pairwise (fun p q => q.2 ≤ p.2) := by
  unfold index at h
  rcases hpg : pageInt ps.page with e | pg
  · rw [hpg] at h; exact absurd h (by simp)
  · rw [hpg] at h
    have hr := Except.ok.inj h
    subst hr
    refine ⟨rfl, rfl, most_common_length 8 _, most_common_length 10 _, ?_, ?_, ?_⟩
    · intro p hp
      have hkey := mem_most_common_keys hp
      rcases List.mem_flatten.mp hkey with ⟨ws, hws, hpw⟩
      rcases List.mem_map.mp hws with ⟨a, _, rfl⟩
      have hw := List.mem_filter.mp hpw
      have hcond := hw.2
      simp only [Bool.and_eq_true, decide_eq_true_eq, Bool.not_eq_true'] at hcond
      refine ⟨hcond.1, fun hmem => ?_⟩
      have hc := hcond.2
      simp only [List.contains, List.elem_eq_mem, decide_eq_false_iff_not] at hc
      exact hc hmem
    · exact most_common_sorted 8 _
    · exact most_common_sorted 10 _

def emptyParams : QueryParams := ⟨none, none, none, none, none⟩

def emptyIndexResult : IndexResult := ⟨[], 1, 1, 0, [], []⟩

theorem C7_witness :
    index [] emptyParams = .ok emptyIndexResult ∧
    emptyIndexResult.top_sources.length ≤ 8 ∧
    emptyIndexResult.top_keywords.length ≤ 10 :=
  ⟨rfl, (C7_trends_over_filtered [] emptyParams emptyIndexResult rfl).2.2.1,
    (C7_trends_over_filtered [] emptyParams emptyIndexResult rfl).2.2.2.1⟩

/-! ### C8: page parameter handling -/

def C8params : QueryParams := ⟨none, none, none, none, some "abc"⟩

/-- C8 counterexample: the claim says a non-numeric `page` defaults to 1 and
never raises — but `int(request.args.get("page", 1))` (src/app.py line 116)
raises an uncaught `ValueError` on `page=abc`, aborting the request. -/
theorem C8_counterexample : index [] C8params = .error () := rfl

theorem paginate_page_one (filtered : List Article) : (paginate filtered 1).page = 1 := by
  show (min (max 1 (1 : Int)) ((max 1 ((filtered.length + per_page - 1) / per_page) : Nat) : Int)).toNat = 1
  have h1 : (1 : Int) ≤ ((max 1 ((filtered.length + per_page - 1) / per_page) : Nat) : Int) := by
    exact_mod_cast Nat.le_max_left 1 _
  omega

/-- C8 (amended): filter query parameters never cause an error — any string
is accepted as literal search text — and a missing `page` parameter defaults
to page 1; but a present non-numeric `page` value makes `int()` raise an
uncaught `ValueError` (the request fails) instead of defaulting: `index`
errors exactly when the page parameter is present and not an integer
literal. -/
theorem index_ok (articles : List Article) (ps : QueryParams) (pg : Int)
    (h : pageInt ps.page = .ok pg) :
    index articles ps = .ok {
      articles := (paginate (filteredArticles articles (procParam ps.q) (procParam ps.region)
        (procParam ps.domain) (procParam ps.source)) pg).items
      page := (paginate (filteredArticles articles (procParam ps.q) (procParam ps.region)
        (procParam ps.domain) (procParam ps.source)) pg).page
      pages := (paginate (filteredArticles articles (procParam ps.q) (procParam ps.region)
        (procParam ps.domain) (procParam ps.source)) pg).pages
      total := (filteredArticles articles (procParam ps.q) (procParam ps.region)
        (procParam ps.domain) (procParam ps.source)).length
      top_sources := (compute_trends (filteredArticles articles (procParam ps.q)
        (procParam ps.region) (procParam ps.domain) (procParam ps.source)) 10).1
      top_keywords := (compute_trends (filteredArticles articles (procParam ps.q)
        (procParam ps.region) (procParam ps.domain) (procParam ps.source)) 10).2 } := by
  unfold index
  rw [h]

theorem index_error_iff (articles : List Article) (ps : QueryParams) :
    index articles ps = .error () ↔ pageInt ps.page = .error () := by
  rcases hpg : pageInt ps.page with e | pg
  · cases e
    constructor
    · intro _; rfl
    · intro _
      unfold index
      rw [hpg]
  · rw [index_ok articles ps pg hpg]
    simp

/-- C8 (amended): filter query parameters never cause an error — any string
is accepted as literal search text — and a missing `page` parameter defaults
to page 1; but a present non-numeric `page` value makes `int()` raise an
uncaught `ValueError` (the request fails) instead of defaulting: `index`
errors exactly when the page parameter is present and not an integer
literal. -/
theorem C8_page_validation (articles : List Article) (ps : QueryParams) :
    (index articles ps = .error () ↔ ∃ s, ps.page = some s ∧ pyInt s = .error ()) ∧
    (ps.page = none → ∃ r, index articles ps = .ok r ∧ r.page = 1) := by
  constructor
  · rw [index_error_iff]
    cases hp : ps.page with
    | none => simp [pageInt]
    | some s => simp [pageInt]
  · intro hp
    exact ⟨_, index_ok articles ps 1 (by rw [hp]; rfl), paginate_page_one _⟩

theorem C8_witness :
    (index [] emptyParams = .error () ↔ ∃ s, emptyParams.page = some s ∧ pyInt s = .error ()) ∧
    (∃ r, index [] emptyParams = .ok r ∧ r.page = 1) :=
  ⟨(C8_page_validation [] emptyParams).1, (C8_page_validation [] emptyParams).2 rfl⟩

end RssApp
